import Mathlib

/-!
Verification of the meco service (`src/meco.py`) against its design spec.

The development shallowly embeds the two cores of the repository:

* the request-processing pipeline of `MecoServiceServicer`
  (`validate_and_respond`, `save_as_yaml`, `Start`), and
* the process lifecycle manager (`is_running`, `server_on`, `server_off`).

Machine-level effects are made explicit: the filesystem and the process
table become components of explicit state records, exceptions become
`Except`, and `fork`/signal results become parameters or fields of the
state.  Python's `json.loads` is embedded as an executable JSON parser
over the standard JSON grammar (the float-only `NaN`/`Infinity` constants
accepted by Python's reader are omitted; numbers are represented
semantically as mantissa × 10^exponent, so the int/float distinction is
collapsed).
-/

namespace Meco

/-- JSON values as produced by `json.loads`.  A number is represented as
`mantissa * 10 ^ exponent` (`num 1 0` is the integer `1`); objects keep
their members in input order. -/
inductive JValue where
  | null : JValue
  | bool (b : Bool) : JValue
  | num (mantissa : Int) (exponent : Int) : JValue
  | str (s : String) : JValue
  | arr (elems : List JValue) : JValue
  | obj (members : List (String × JValue)) : JValue

/-- JSON whitespace as accepted by Python's `json` module. -/
def isJsonWs (c : Char) : Bool :=
  c = ' ' || c = '\t' || c = '\n' || c = '\r'

/-- Drop leading JSON whitespace. -/
def skipWs : List Char → List Char
  | [] => []
  | c :: cs => if isJsonWs c then skipWs cs else c :: cs

def isDigitCh (c : Char) : Bool := 48 ≤ c.toNat && c.toNat ≤ 57

def digitVal (c : Char) : Nat := c.toNat - 48

/-- Value of a hex digit (`0-9`, `a-f`, `A-F` by character code). -/
def hexVal (c : Char) : Option Nat :=
  let n := c.toNat
  if 48 ≤ n && n ≤ 57 then some (n - 48)
  else if 97 ≤ n && n ≤ 102 then some (n - 87)
  else if 65 ≤ n && n ≤ 70 then some (n - 55)
  else none

/-- Accumulate a run of decimal digits, returning them (as a `Nat` plus a
count) together with the rest of the input. -/
def takeDigits : List Char → Nat → Nat → (Nat × Nat × List Char)
  | [], acc, n => (acc, n, [])
  | c :: cs, acc, n =>
    if isDigitCh c then takeDigits cs (acc * 10 + digitVal c) (n + 1)
    else (acc, n, c :: cs)

/-- Parse the body of a JSON string literal (the opening quote already
consumed), handling the standard escapes; `\uXXXX` becomes the character
with that code (an invalid code falls back to `Char.ofNat`'s default;
surrogate-pair recombination is not modelled). -/
def pStr : List Char → List Char → Option (String × List Char)
  | [], _ => none
  | '"' :: cs, acc => some (String.mk acc.reverse, cs)
  | '\\' :: cs, acc =>
    match cs with
    | '"' :: cs' => pStr cs' ('"' :: acc)
    | '\\' :: cs' => pStr cs' ('\\' :: acc)
    | '/' :: cs' => pStr cs' ('/' :: acc)
    | 'b' :: cs' => pStr cs' (Char.ofNat 8 :: acc)
    | 'f' :: cs' => pStr cs' (Char.ofNat 12 :: acc)
    | 'n' :: cs' => pStr cs' ('\n' :: acc)
    | 'r' :: cs' => pStr cs' ('\r' :: acc)
    | 't' :: cs' => pStr cs' ('\t' :: acc)
    | 'u' :: h1 :: h2 :: h3 :: h4 :: cs' =>
      match hexVal h1, hexVal h2, hexVal h3, hexVal h4 with
      | some a, some b, some c, some d =>
        pStr cs' (Char.ofNat (((a * 16 + b) * 16 + c) * 16 + d) :: acc)
      | _, _, _, _ => none
    | _ => none
  | c :: cs, acc =>
    if c.toNat < 32 then none else pStr cs (c :: acc)

/-- Parse a JSON number (leading `-` included), per the JSON grammar:
`-? (0 | [1-9][0-9]*) (\.[0-9]+)? ([eE][+-]?[0-9]+)?`. -/
def pNum (input : List Char) : Option (JValue × List Char) :=
  let (neg, cs) :=
    match input with
    | '-' :: cs => (true, cs)
    | cs => (false, cs)
  match cs with
  | [] => none
  | c :: _ =>
    if ¬ isDigitCh c then none
    else
      let (intPart, intLen, cs1) := takeDigits cs 0 0
      -- JSON forbids leading zeros: "0" is fine, "01" is not.
      if c = '0' ∧ intLen ≠ 1 then none
      else
        let (mant1, fracLen, cs2) :=
          match cs1 with
          | '.' :: d :: ds =>
            if isDigitCh d then
              let (fr, n, rest) := takeDigits (d :: ds) 0 0
              (intPart * 10 ^ n + fr, n, rest)
            else (intPart, 0, '.' :: d :: ds)
          | rest => (intPart, 0, rest)
        -- A '.' not followed by a digit makes the whole number a parse error.
        match cs2 with
        | '.' :: _ => none
        | _ =>
          let expRes : Option (Int × List Char) :=
            match cs2 with
            | 'e' :: rest | 'E' :: rest =>
              let (eneg, rest') :=
                match rest with
                | '+' :: r => (false, r)
                | '-' :: r => (true, r)
                | r => (false, r)
              match rest' with
              | d :: _ =>
                if isDigitCh d then
                  let (e, _, rest'') := takeDigits rest' 0 0
                  some (if eneg then -(e : Int) else (e : Int), rest'')
                else none
              | [] => none
            | rest => some (0, rest)
          match expRes with
          | none => none
          | some (e, rest) =>
            let m : Int := if neg then -(mant1 : Int) else (mant1 : Int)
            some (JValue.num m (e - (fracLen : Int)), rest)

/-- Parser mode: a full value, the items of an array after `[`, or the
members of an object after `{`. -/
inductive PMode where
  | value : PMode
  | arrItems : PMode
  | objMembers : PMode

/-- Parser result for the corresponding mode. -/
inductive PRes where
  | val (v : JValue) : PRes
  | items (l : List JValue) : PRes
  | members (l : List (String × JValue)) : PRes

/-- Recursive-descent JSON parser, structurally recursive on fuel.
`value` parses one JSON value; `arrItems` parses `value (, value)* ]`;
`objMembers` parses `string : value (, string : value)* }`.  Each
recursive call spends one unit of fuel, so `2 * length + 2` fuel is
always sufficient. -/
def pAux : Nat → PMode → List Char → Option (PRes × List Char)
  | 0, _, _ => none
  | fl + 1, PMode.value, cs =>
    match skipWs cs with
    | 'n' :: 'u' :: 'l' :: 'l' :: rest => some (PRes.val JValue.null, rest)
    | 't' :: 'r' :: 'u' :: 'e' :: rest => some (PRes.val (JValue.bool true), rest)
    | 'f' :: 'a' :: 'l' :: 's' :: 'e' :: rest => some (PRes.val (JValue.bool false), rest)
    | '"' :: rest =>
      match pStr rest [] with
      | some (s, rest') => some (PRes.val (JValue.str s), rest')
      | none => none
    | '[' :: rest =>
      match skipWs rest with
      | ']' :: rest' => some (PRes.val (JValue.arr []), rest')
      | rest' =>
        match pAux fl PMode.arrItems rest' with
        | some (PRes.items l, rest'') => some (PRes.val (JValue.arr l), rest'')
        | _ => none
    | '\x7b' :: rest =>
      match skipWs rest with
      | '\x7d' :: rest' => some (PRes.val (JValue.obj []), rest')
      | rest' =>
        match pAux fl PMode.objMembers rest' with
        | some (PRes.members l, rest'') => some (PRes.val (JValue.obj l), rest'')
        | _ => none
    | rest =>
      match pNum rest with
      | some (v, rest') => some (PRes.val v, rest')
      | none => none
  | fl + 1, PMode.arrItems, cs =>
    match pAux fl PMode.value cs with
    | some (PRes.val v, rest) =>
      (match skipWs rest with
       | ']' :: rest' => some (PRes.items [v], rest')
       | ',' :: rest' =>
         match pAux fl PMode.arrItems rest' with
         | some (PRes.items l, rest'') => some (PRes.items (v :: l), rest'')
         | _ => none
       | _ => none)
    | _ => none
  | fl + 1, PMode.objMembers, cs =>
    match skipWs cs with
    | '"' :: rest =>
      match pStr rest [] with
      | some (k, rest') =>
        (match skipWs rest' with
         | ':' :: rest'' =>
           match pAux fl PMode.value rest'' with
           | some (PRes.val v, rest3) =>
             (match skipWs rest3 with
              | '\x7d' :: rest4 => some (PRes.members [(k, v)], rest4)
              | ',' :: rest4 =>
                match pAux fl PMode.objMembers rest4 with
                | some (PRes.members l, rest5) => some (PRes.members ((k, v) :: l), rest5)
                | _ => none
              | _ => none)
           | _ => none
         | _ => none)
      | none => none
    | _ => none

/-- Embedding of Python's `json.loads`: parse one JSON value and require
that only whitespace follows; `none` models `json.JSONDecodeError`. -/
def json_loads (s : String) : Option JValue :=
  match pAux (2 * s.length + 2) PMode.value s.data with
  | some (PRes.val v, rest) => if skipWs rest = [] then some v else none
  | _ => none

/-- Boolean list-prefix test (used for substring matching). -/
def isPre : List Char → List Char → Bool
  | [], _ => true
  | _ :: _, [] => false
  | a :: as, b :: bs => a = b && isPre as bs

/-- Boolean substring test: does `needle` occur inside `hay`?  Embeds
Python's `in` operator on strings. -/
def strContains (hay needle : String) : Bool :=
  go hay.data needle.data
where
  go : List Char → List Char → Bool
    | hay, needle =>
      if isPre needle hay then true
      else match hay with
        | [] => false
        | _ :: rest => go rest needle

/-- The `StartResponse` protobuf message: `{success, message}` — the
spec's `Outcome`. -/
structure StartResponse where
  success : Bool
  message : String
deriving DecidableEq, Repr

/-- The `ResourceDescriptor` protobuf message.  Field presence
(`HasField`) is modelled by `Option`; `dry_run` is a plain bool
defaulting to `false`.  The servicer checks `file_path` before
`file_content`, so a request with both set takes the `file_path` path. -/
structure ResourceDescriptor where
  file_path : Option String
  file_content : Option String
  save_as : Option String
  dry_run : Bool
deriving DecidableEq, Repr

/-- A file visible to the server for `file_path` reads: either its text
content, or a file whose `open`/`read` raises an OS error with the given
message (e.g. `PermissionError`). -/
inductive FileEntry where
  | readable (content : String) : FileEntry
  | unreadable (err : String) : FileEntry
deriving DecidableEq, Repr

/-- The machine state the request pipeline touches: the filesystem used
for `file_path` reads (`os.path.isfile` is true exactly when the path is
present), the contents of `UPLOADS_DIR` (`/tmp/meco_uploads`), and a
pending I/O fault for writes.

An uploads entry `(name, v)` stands for a file `UPLOADS_DIR/name`
holding `yaml.dump(v)`; we record the decoded value `v` itself, since
YAML deserialization recovers exactly the dumped data.  Writing prepends,
and lookup takes the first match, so rewriting a name overwrites it.

`writeError = some e` models the OS raising `e` from
`os.makedirs`/`open`/`write` inside `save_as_yaml` (caught there by
`except Exception`). -/
structure World where
  files : List (String × FileEntry)
  uploads : List (String × JValue)
  writeError : Option String

/-- First-match association lookup (Python `os.path.isfile` + `open` on
our explicit filesystem). -/
def lookupFile : List (String × FileEntry) → String → Option FileEntry
  | [], _ => none
  | (p, e) :: rest, q => if p = q then some e else lookupFile rest q

/-- First-match lookup in the uploads directory. -/
def lookupUpload : List (String × JValue) → String → Option JValue
  | [], _ => none
  | (p, v) :: rest, q => if p = q then some v else lookupUpload rest q

/-- `MecoServiceServicer.validate_and_respond` (meco.py:47-53): try
`json.loads(content)`; on success report valid syntax, on
`JSONDecodeError` report invalid syntax.  It takes no state and returns
plainly, so it has no side effects and lets no exception escape. -/
def validate_and_respond (content : String) : StartResponse :=
  match json_loads content with
  | some _ => ⟨true, "Content syntax is valid."⟩
  | none => ⟨false, "Error: Invalid JSON syntax."⟩

/-- `MecoServiceServicer.save_as_yaml` (meco.py:55-72): parse the JSON,
then write `yaml.dump(data)` to `UPLOADS_DIR/<save_as>.yaml` (creating
the directory if needed).  `JSONDecodeError` yields the invalid-syntax
outcome; any other exception during the write yields
`"Error saving file: <e>"`.  Both are caught locally. -/
def save_as_yaml (json_content save_as : String) (w : World) :
    StartResponse × World :=
  match json_loads json_content with
  | none => (⟨false, "Error: Invalid JSON syntax."⟩, w)
  | some data =>
    match w.writeError with
    | some e => (⟨false, "Error saving file: " ++ e⟩, w)
    | none =>
      (⟨true, "Saved as " ++ ("/tmp/meco_uploads/" ++ (save_as ++ ".yaml"))⟩,
       { w with uploads := (save_as ++ ".yaml", data) :: w.uploads })

/-- The persist-then-validate block that `Start` runs twice verbatim
(meco.py:91-101 for the `file_path` branch and meco.py:126-135 for the
common branch): call `save_as_yaml`; if it failed return its outcome,
otherwise run `validate_and_respond` and return either its failure or
the combined success message. -/
def save_then_validate (content save_as : String) (w : World) :
    StartResponse × World :=
  let r := save_as_yaml content save_as w
  if r.1.success then
    let r2 := validate_and_respond content
    if r2.success then
      (⟨true, "File content processed and saved successfully."⟩, r.2)
    else (r2, r.2)
  else r

/-- The common tail of `Start` (meco.py:114-145), reached once a working
payload exists and the `file_path`+`save_as` branch did not intercept:
with `save_as` present the order of validate vs persist depends on
`dry_run`; without `save_as` only validation runs and `dry_run` merely
changes the success wording. -/
def processResolved (save_as : Option String) (dry_run : Bool)
    (content : String) (w : World) : StartResponse × World :=
  match save_as with
  | some s =>
    if dry_run then
      let r := validate_and_respond content
      if r.success then
        let r2 := save_as_yaml content s w
        if r2.1.success then
          (⟨true, "File saved as " ++ (s ++ ".yaml (dry run)")⟩, r2.2)
        else r2
      else (r, w)
    else save_then_validate content s w
  | none =>
    let r := validate_and_respond content
    if r.success then
      if dry_run then (⟨true, "File content validated (dry run)."⟩, w)
      else (⟨true, "File content processed successfully."⟩, w)
    else (r, w)

/-- The body of `Start` inside its `try` (meco.py:76-145).  `.error e`
marks an exception reaching the top-level handler; the only unguarded
raise site is the `open`/`read` of `file_path` (meco.py:87-88), every
other fallible step handles its own exceptions.  Note the asymmetry of
the source: a `file_path` request with `save_as` is fully handled at
meco.py:91-101 (persist first, `dry_run` never consulted) and never
reaches the common tail, while without `save_as` it falls through to it.
The meco.py:111 `file_content is None` guard is unreachable — every path
either set the payload or already returned — so it has no residue here. -/
def startBody (req : ResourceDescriptor) (w : World) :
    Except String (StartResponse × World) :=
  match req.file_path with
  | some p =>
    match lookupFile w.files p with
    | none => Except.ok (⟨false, "File does not exist: " ++ p⟩, w)
    | some (FileEntry.unreadable e) => Except.error e
    | some (FileEntry.readable content) =>
      match req.save_as with
      | some s => Except.ok (save_then_validate content s w)
      | none => Except.ok (processResolved none req.dry_run content w)
  | none =>
    match req.file_content with
    | some content =>
      Except.ok (processResolved req.save_as req.dry_run content w)
    | none =>
      Except.ok (⟨false, "No file_path or file_content provided."⟩, w)

/-- `MecoServiceServicer.Start` (meco.py:74-149): run the pipeline body
and convert any escaped exception into the generic failure outcome.  The
total return type is the embedding of "a response is always returned to
the transport". -/
def Start (req : ResourceDescriptor) (w : World) : StartResponse × World :=
  match startBody req w with
  | Except.ok out => out
  | Except.error e => (⟨false, "An unexpected error occurred: " ++ e⟩, w)

/-! ## Process lifecycle manager -/

/-- The state `server_on` reads: the PID file at `/tmp/meco_server.pid`
(`some p` = file present holding `p`) and the OS process table as an
aliveness predicate (`os.kill(pid, 0)` succeeds exactly on live pids). -/
structure OnWorld where
  pidFile : Option Nat
  alive : Nat → Bool

/-- `is_running` (meco.py:167-173): signal 0 succeeds iff the process
exists. -/
def is_running (w : OnWorld) (pid : Nat) : Bool :=
  w.alive pid

/-- Observable outcome of one `server_on` invocation.
`warnedAlreadyOn`: logged "already ON" and exited without forking.
`forked`: a new service was launched.  `staleRemoved`: a dead-pid record
was deleted first.  `pidFileAfter`: the record's content afterwards.
`recordedChildExited`: the process whose pid was recorded has already
exited (the first fork child runs `sys.exit(0)` right after its own
second fork).  `servePid`: pid of the process left running
`serve_forever`, if any. -/
structure OnOutcome where
  warnedAlreadyOn : Bool
  forked : Bool
  staleRemoved : Bool
  pidFileAfter : Option Nat
  recordedChildExited : Bool
  servePid : Option Nat
deriving DecidableEq, Repr

/-- `server_on` (meco.py:176-198).  `childPid` is what the first
`os.fork()` returns to the parent; `grandchildPid` is the pid of the
second fork's child (distinct from `childPid`, its parent).  The parent
writes `childPid` into the PID file and exits; the child calls
`os.setsid()`, forks again and exits; the grandchild runs
`serve_forever()`. -/
def server_on (w : OnWorld) (childPid grandchildPid : Nat) : OnOutcome :=
  match w.pidFile with
  | some old =>
    if is_running w old then
      { warnedAlreadyOn := true, forked := false, staleRemoved := false,
        pidFileAfter := some old, recordedChildExited := false,
        servePid := none }
    else
      { warnedAlreadyOn := false, forked := true, staleRemoved := true,
        pidFileAfter := some childPid, recordedChildExited := true,
        servePid := some grandchildPid }
  | none =>
      { warnedAlreadyOn := false, forked := true, staleRemoved := false,
        pidFileAfter := some childPid, recordedChildExited := true,
        servePid := some grandchildPid }

/-- A process as seen by `psutil.process_iter`: its pid, command line,
and how it reacts to `SIGTERM` — `some d` means it exits `d` seconds
after the signal, `none` means it ignores it.  `SIGKILL` always kills. -/
structure Proc where
  pid : Nat
  cmdline : List String
  sigtermDelay : Option Nat
deriving DecidableEq, Repr

/-- A process matches the sweep when `"meco.py" in " ".join(cmdline)`. -/
def isMecoProc (p : Proc) : Bool :=
  strContains (String.intercalate " " p.cmdline) "meco.py"

/-- The poll loop (meco.py:222-225) checks `pid_exists` five times, one
second apart, starting right after `SIGTERM`; a process exiting `d`
seconds after the signal is seen gone at some check iff `d ≤ 4`, and the
`for`/`else` sends `SIGKILL` exactly when all five checks saw it alive. -/
def sigkillNeeded (p : Proc) : Bool :=
  match p.sigtermDelay with
  | none => true
  | some d => 5 ≤ d

/-- What the sweep did to one matched process: `SIGTERM` was sent
(matched processes always receive it), and `sigkillSent` records whether
the timeout elapsed and `SIGKILL` followed. -/
structure KillRecord where
  pid : Nat
  sigkillSent : Bool
deriving DecidableEq, Repr

/-- The scan loop of `server_off` (meco.py:208-234): walk the process
table; skip the stop process itself; for every process whose command
line contains "meco.py", terminate it (gracefully, then forcefully on
timeout) and record it; everything else survives.  Returns the kill
records in scan order, the surviving processes and whether any server
process was found. -/
def sweep (selfPid : Nat) : List Proc → List KillRecord × List Proc × Bool
  | [] => ([], [], false)
  | p :: rest =>
    let r := sweep selfPid rest
    if p.pid = selfPid then (r.1, p :: r.2.1, r.2.2)
    else if isMecoProc p then (⟨p.pid, sigkillNeeded p⟩ :: r.1, r.2.1, true)
    else (r.1, p :: r.2.1, r.2.2)

/-- The state `server_off` acts on: the process table, the stop
command's own pid, and whether the PID file exists. -/
structure OffWorld where
  procs : List Proc
  selfPid : Nat
  pidFileExists : Bool
deriving DecidableEq, Repr

/-- Observable outcome of `server_off`. -/
structure OffOutcome where
  kills : List KillRecord
  procsAfter : List Proc
  serverProcessFound : Bool
  reportedAlreadyOff : Bool
  pidFileAfter : Bool
  exitCode : Nat
deriving DecidableEq, Repr

/-- `server_off` (meco.py:201-247): sweep-kill every meco.py process
except itself; if none was found log that everything is already off;
remove the PID file ignoring `FileNotFoundError`; `sys.exit(0)`. -/
def server_off (w : OffWorld) : OffOutcome :=
  let r := sweep w.selfPid w.procs
  { kills := r.1
    procsAfter := r.2.1
    serverProcessFound := r.2.2
    reportedAlreadyOff := !r.2.2
    pidFileAfter := false
    exitCode := 0 }

/-! ## Claim theorems -/

/-- C7: for every content string, `validate_and_respond` returns
`{success: true, message: "Content syntax is valid."}` exactly when the
string parses as well-formed JSON and
`{success: false, message: "Error: Invalid JSON syntax."}` otherwise;
its type (`String → StartResponse`, no state, no `Except`) embeds the
absence of side effects and of escaping exceptions. -/
theorem C7_validate_iff_json (content : String) :
    validate_and_respond content =
      (if (json_loads content).isSome then ⟨true, "Content syntax is valid."⟩
       else ⟨false, "Error: Invalid JSON syntax."⟩) ∧
    ((validate_and_respond content).success = true ↔
      (json_loads content).isSome = true) := by
  cases h : json_loads content <;> simp [validate_and_respond, h]

/-- C8: `Start` on the inline content `{"a":1}` with `save_as="x"` and
`dry_run=false` succeeds, and the uploads directory afterwards holds
`x.yaml` whose decoded content is exactly the value `json.loads` gives
for `{"a":1}`. -/
theorem C8_round_trip :
    (Start ⟨none, some "\x7b\"a\":1\x7d", some "x", false⟩ ⟨[], [], none⟩).1.success = true ∧
    lookupUpload
      (Start ⟨none, some "\x7b\"a\":1\x7d", some "x", false⟩ ⟨[], [], none⟩).2.uploads
      "x.yaml" = some (JValue.obj [("a", JValue.num 1 0)]) ∧
    json_loads "\x7b\"a\":1\x7d" = some (JValue.obj [("a", JValue.num 1 0)]) :=
  ⟨rfl, rfl, rfl⟩

/-- C9: a descriptor with neither `file_path` nor `file_content` set
makes `Start` return the fixed failure outcome with the state untouched
(no validation, no write), whatever `save_as` and `dry_run` hold. -/
theorem C9_missing_fields (sa : Option String) (dr : Bool) (w : World) :
    Start ⟨none, none, sa, dr⟩ w =
      (⟨false, "No file_path or file_content provided."⟩, w) := rfl

/-- C6: `Start` is a total function into responses — an `.error e` of
the pipeline body (an exception reaching the top-level handler) is
always converted to the generic failure outcome, and an `.ok` result is
passed through unchanged; no exception reaches the transport. -/
theorem C6_no_exception_escape (req : ResourceDescriptor) (w : World) :
    (∀ e, startBody req w = Except.error e →
      Start req w = (⟨false, "An unexpected error occurred: " ++ e⟩, w)) ∧
    (∀ out, startBody req w = Except.ok out → Start req w = out) := by
  constructor <;> intro x h <;> simp [Start, h]

/-- C6 witness: a `file_path` request on a file whose read raises
`Permission denied` yields the generic failure outcome. -/
theorem C6_witness :
    Start ⟨some "f", none, none, false⟩
        ⟨[("f", FileEntry.unreadable "Permission denied")], [], none⟩ =
      (⟨false, "An unexpected error occurred: Permission denied"⟩,
       ⟨[("f", FileEntry.unreadable "Permission denied")], [], none⟩) :=
  (C6_no_exception_escape ⟨some "f", none, none, false⟩
      ⟨[("f", FileEntry.unreadable "Permission denied")], [], none⟩).1
    "Permission denied" rfl

/-- C1 counterexample: a request that supplies content via `file_path`
(reading a file holding valid JSON) with `save_as` present and
`dry_run=true` is intercepted by the `file_path`+`save_as` branch
(meco.py:91-101), which never consults `dry_run`: the response is the
plain persist-first success message, and it does not reference
"(dry run)" — contradicting the claim for this request. -/
theorem C1_counterexample :
    (Start ⟨some "cfg", none, some "z", true⟩
        ⟨[("cfg", FileEntry.readable "\x7b\x7d")], [], none⟩).1 =
      ⟨true, "File content processed and saved successfully."⟩ ∧
    strContains "File content processed and saved successfully." "(dry run)" = false :=
  ⟨rfl, rfl⟩

/-- C1 (amended to inline-content requests): when content arrives via
`file_content` with `save_as` present and `dry_run=true`, `Start`
validates first; only on successful validation is `save_as_yaml` run,
and on its success the "(dry run)" message is returned even though the
upload really happened (third conjunct: the written file appears in the
uploads directory); on validation failure the validation outcome is
returned with the state untouched. -/
theorem C1_dry_run_inline (c s : String) (w : World) :
    ((validate_and_respond c).success = false →
      Start ⟨none, some c, some s, true⟩ w = (validate_and_respond c, w)) ∧
    ((validate_and_respond c).success = true →
      Start ⟨none, some c, some s, true⟩ w =
        (if (save_as_yaml c s w).1.success then
          (⟨true, "File saved as " ++ (s ++ ".yaml (dry run)")⟩,
           (save_as_yaml c s w).2)
         else save_as_yaml c s w)) ∧
    (∀ data, json_loads c = some data → w.writeError = none →
      (Start ⟨none, some c, some s, true⟩ w).1 =
        ⟨true, "File saved as " ++ (s ++ ".yaml (dry run)")⟩ ∧
      (Start ⟨none, some c, some s, true⟩ w).2.uploads =
        (s ++ ".yaml", data) :: w.uploads) := by
  refine ⟨?_, ?_, ?_⟩
  · intro h
    cases hj : json_loads c with
    | none => simp [Start, startBody, processResolved, validate_and_respond, hj]
    | some data => simp [validate_and_respond, hj] at h
  · intro h
    cases hj : json_loads c with
    | none => simp [validate_and_respond, hj] at h
    | some data =>
      cases hw : w.writeError with
      | none =>
        simp [Start, startBody, processResolved, validate_and_respond,
          save_as_yaml, hj, hw]
      | some e =>
        simp [Start, startBody, processResolved, validate_and_respond,
          save_as_yaml, hj, hw]
  · intro data hj hw
    simp [Start, startBody, processResolved, validate_and_respond,
      save_as_yaml, hj, hw]

/-- C1 witness: inline content `1`, `save_as="n"`, `dry_run=true` — the
theorem's validation-succeeded branch applied at a concrete input. -/
theorem C1_witness :
    Start ⟨none, some "1", some "n", true⟩ ⟨[], [], none⟩ =
      (⟨true, "File saved as " ++ ("n" ++ ".yaml (dry run)")⟩,
       (save_as_yaml "1" "n" ⟨[], [], none⟩).2) := by
  have h := (C1_dry_run_inline "1" "n" ⟨[], [], none⟩).2.1 rfl
  rw [h]
  rfl

/-- C2: whenever `save_as` is present, `dry_run` is false and the
content resolves (inline, or read from an existing readable file),
`Start` runs the persist-then-validate block: a persistence failure is
returned immediately with validation skipped; if persistence succeeded
but validation failed, the validation outcome is returned over the
already-written state; and concretely
`Start(file_content="not json", save_as="y", dry_run=false)` fails with
the invalid-syntax message. -/
theorem C2_persist_then_validate (req : ResourceDescriptor)
    (content s : String) (w : World)
    (hs : req.save_as = some s) (hd : req.dry_run = false)
    (hres : (req.file_path = none ∧ req.file_content = some content) ∨
      (∃ p, req.file_path = some p ∧
        lookupFile w.files p = some (FileEntry.readable content))) :
    Start req w = save_then_validate content s w ∧
    ((save_as_yaml content s w).1.success = false →
      Start req w = save_as_yaml content s w) ∧
    ((save_as_yaml content s w).1.success = true →
      (validate_and_respond content).success = false →
      Start req w = (validate_and_respond content, (save_as_yaml content s w).2)) ∧
    (∀ w' : World, Start ⟨none, some "not json", some "y", false⟩ w' =
      (⟨false, "Error: Invalid JSON syntax."⟩, w')) := by
  obtain ⟨fp, fc, sa, dr⟩ := req
  simp only at hs hd
  subst hs hd
  have hmain : Start ⟨fp, fc, some s, false⟩ w = save_then_validate content s w := by
    rcases hres with ⟨h1, h2⟩ | ⟨p, h1, h2⟩
    · simp only at h1 h2
      subst h1 h2
      rfl
    · simp only at h1
      subst h1
      simp [Start, startBody, h2]
  refine ⟨hmain, ?_, ?_, fun w' => rfl⟩
  · intro h
    rw [hmain]
    simp [save_then_validate, h]
  · intro h1 h2
    rw [hmain]
    simp [save_then_validate, h1, h2]

/-- C2 witness: the concrete scenario from the claim, resolved through
the theorem's inline branch. -/
theorem C2_witness :
    Start ⟨none, some "not json", some "y", false⟩ ⟨[], [], none⟩ =
      (⟨false, "Error: Invalid JSON syntax."⟩, ⟨[], [], none⟩) :=
  (C2_persist_then_validate ⟨none, some "not json", some "y", false⟩
      "not json" "y" ⟨[], [], none⟩ rfl rfl (Or.inl ⟨rfl, rfl⟩)).2.2.2
    ⟨[], [], none⟩

/-- C10: if `save_as_yaml` succeeds on a string, `validate_and_respond`
also succeeds on it (both start by parsing it with the same JSON
reader), so in the `save_as`-present, `dry_run=false` inline path the
validation-failure-after-persist branch is unreachable: the response is
always either the persist failure or the combined success message. -/
theorem C10_save_success_implies_valid (content s : String) (w : World) :
    ((save_as_yaml content s w).1.success = true →
      (validate_and_respond content).success = true) ∧
    Start ⟨none, some content, some s, false⟩ w =
      (if (save_as_yaml content s w).1.success then
        (⟨true, "File content processed and saved successfully."⟩,
         (save_as_yaml content s w).2)
       else save_as_yaml content s w) := by
  constructor
  · intro h
    cases hj : json_loads content with
    | none => simp [save_as_yaml, hj] at h
    | some data => simp [validate_and_respond, hj]
  · cases hj : json_loads content with
    | none =>
      simp [Start, startBody, processResolved, save_then_validate,
        save_as_yaml, validate_and_respond, hj]
    | some data =>
      cases hw : w.writeError with
      | none =>
        simp [Start, startBody, processResolved, save_then_validate,
          save_as_yaml, validate_and_respond, hj, hw]
      | some e =>
        simp [Start, startBody, processResolved, save_then_validate,
          save_as_yaml, validate_and_respond, hj, hw]

/-- C10 witness: on the content `1` persistence succeeds, and the
theorem then forces validation to succeed as well. -/
theorem C10_witness : (validate_and_respond "1").success = true :=
  (C10_save_success_implies_valid "1" "n" ⟨[], [], none⟩).1 rfl

/-- C3: `server_on` with an existing LivenessRecord: if the recorded
process is alive it warns and exits with no fork (the record and the set
of running processes are untouched, so the single running instance is
left alone); if the recorded process is dead the stale record is removed
and a fresh service is forked. -/
theorem C3_turnOn_idempotent (w : OnWorld) (c g old : Nat)
    (hp : w.pidFile = some old) :
    (w.alive old = true →
      server_on w c g =
        { warnedAlreadyOn := true, forked := false, staleRemoved := false,
          pidFileAfter := some old, recordedChildExited := false,
          servePid := none }) ∧
    (w.alive old = false →
      (server_on w c g).staleRemoved = true ∧
      (server_on w c g).forked = true ∧
      (server_on w c g).servePid = some g) := by
  constructor <;> intro h <;> simp [server_on, is_running, hp, h]

/-- C3 witness: record holds pid 42 and process 42 is alive — the
second turn-on warns and forks nothing. -/
theorem C3_witness :
    server_on ⟨some 42, fun p => p = 42⟩ 7 8 =
      { warnedAlreadyOn := true, forked := false, staleRemoved := false,
        pidFileAfter := some 42, recordedChildExited := false,
        servePid := none } :=
  (C3_turnOn_idempotent ⟨some 42, fun p => p = 42⟩ 7 8 42 rfl).1 (by decide)

/-- C4: against the claim, a fresh `server_on` (no existing record,
first fork returns 100, second fork child is 101) records pid 100 in
the PID file while the serve loop runs in process 101 — and process 100
has already exited (the first child `sys.exit(0)`s right after its
second fork).  The LivenessRecord therefore identifies a dead
intermediate process, never the running service instance. -/
theorem C4_pidfile_records_dead_intermediate :
    server_on ⟨none, fun _ => false⟩ 100 101 =
      { warnedAlreadyOn := false, forked := true, staleRemoved := false,
        pidFileAfter := some 100, recordedChildExited := true,
        servePid := some 101 } ∧
    (100 : Nat) ≠ 101 :=
  ⟨rfl, by decide⟩

/-- Every survivor of the sweep is the stop process itself or a
non-meco process. -/
theorem sweep_survivor_mem (selfPid : Nat) (l : List Proc) (p : Proc)
    (h : p ∈ (sweep selfPid l).2.1) :
    p.pid = selfPid ∨ isMecoProc p = false := by
  induction l with
  | nil => simp [sweep] at h
  | cons q rest ih =>
    by_cases h1 : q.pid = selfPid
    · rw [sweep, if_pos h1] at h
      rcases List.mem_cons.mp h with h | h
      · exact Or.inl (h ▸ h1)
      · exact ih h
    · by_cases h2 : isMecoProc q = true
      · rw [sweep, if_neg h1, if_pos h2] at h
        exact ih h
      · rw [sweep, if_neg h1, if_neg h2] at h
        rcases List.mem_cons.mp h with h | h
        · exact Or.inr (h ▸ (by simpa using h2))
        · exact ih h

/-- Every meco process other than the stop process itself gets a kill
record: graceful termination, then forceful exactly when it outlives
the five-poll timeout. -/
theorem sweep_kill_mem (selfPid : Nat) (l : List Proc) (p : Proc)
    (h : p ∈ l) (h1 : p.pid ≠ selfPid) (h2 : isMecoProc p = true) :
    (⟨p.pid, sigkillNeeded p⟩ : KillRecord) ∈ (sweep selfPid l).1 := by
  induction l with
  | nil => simp at h
  | cons q rest ih =>
    rcases List.mem_cons.mp h with h | h
    · subst h
      rw [sweep, if_neg h1, if_pos h2]
      exact List.mem_cons_self _ _
    · by_cases hq1 : q.pid = selfPid
      · rw [sweep, if_pos hq1]
        exact ih h
      · by_cases hq2 : isMecoProc q = true
        · rw [sweep, if_neg hq1, if_pos hq2]
          exact List.mem_cons_of_mem _ (ih h)
        · rw [sweep, if_neg hq1, if_neg hq2]
          exact ih h

/-- The sweep's found flag is set exactly when some process other than
the stop process matches. -/
theorem sweep_found_iff (selfPid : Nat) (l : List Proc) :
    (sweep selfPid l).2.2 = true ↔
      ∃ p, p ∈ l ∧ p.pid ≠ selfPid ∧ isMecoProc p = true := by
  induction l with
  | nil => simp [sweep]
  | cons q rest ih =>
    by_cases h1 : q.pid = selfPid
    · rw [sweep, if_pos h1]
      constructor
      · intro h
        obtain ⟨p, hp, hp1, hp2⟩ := ih.1 h
        exact ⟨p, List.mem_cons_of_mem _ hp, hp1, hp2⟩
      · rintro ⟨p, hp, hp1, hp2⟩
        rcases List.mem_cons.mp hp with hp | hp
        · exact absurd (hp ▸ h1) hp1
        · exact ih.2 ⟨p, hp, hp1, hp2⟩
    · by_cases h2 : isMecoProc q = true
      · rw [sweep, if_neg h1, if_pos h2]
        simp only [true_iff]
        exact ⟨q, List.mem_cons_self _ _, h1, h2⟩
      · rw [sweep, if_neg h1, if_neg h2]
        constructor
        · intro h
          obtain ⟨p, hp, hp1, hp2⟩ := ih.1 h
          exact ⟨p, List.mem_cons_of_mem _ hp, hp1, hp2⟩
        · rintro ⟨p, hp, hp1, hp2⟩
          rcases List.mem_cons.mp hp with hp | hp
          · exact absurd (hp ▸ hp2) (by simpa using h2)
          · exact ih.2 ⟨p, hp, hp1, hp2⟩

/-- C5: after `server_off`, no process other than the stop command
itself matches the service identity; every matching process received
graceful termination and forceful termination exactly when it outlived
the five 1-second polls; "already off" is reported exactly when no
matching process existed; the PID file is gone unconditionally; and the
command exits with status 0. -/
theorem C5_turnOff_sweep (w : OffWorld) :
    (∀ p, p ∈ (server_off w).procsAfter → p.pid ≠ w.selfPid →
      isMecoProc p = false) ∧
    (∀ p, p ∈ w.procs → p.pid ≠ w.selfPid → isMecoProc p = true →
      (⟨p.pid, sigkillNeeded p⟩ : KillRecord) ∈ (server_off w).kills) ∧
    ((server_off w).reportedAlreadyOff = true ↔
      ¬ ∃ p, p ∈ w.procs ∧ p.pid ≠ w.selfPid ∧ isMecoProc p = true) ∧
    (server_off w).pidFileAfter = false ∧
    (server_off w).exitCode = 0 := by
  refine ⟨?_, ?_, ?_, rfl, rfl⟩
  · intro p hp hne
    rcases sweep_survivor_mem w.selfPid w.procs p hp with h | h
    · exact absurd h hne
    · exact h
  · intro p hp h1 h2
    exact sweep_kill_mem w.selfPid w.procs p hp h1 h2
  · show (!(sweep w.selfPid w.procs).2.2) = true ↔ _
    rw [Bool.not_eq_true']
    rw [← Bool.not_eq_true (sweep w.selfPid w.procs).2.2, ← not_iff_not] at *
    simp only [not_not]
    exact sweep_found_iff w.selfPid w.procs

/-- C5 witness: a process table with two meco processes (pids 1 and 3,
one responsive to SIGTERM and one not), one unrelated process and the
stop command itself (pid 5): both meco processes get kill records (pid 3
needs SIGKILL), the survivors are clean, and the PID file is removed. -/
theorem C5_witness :
    ((⟨3, true⟩ : KillRecord) ∈
      (server_off ⟨[⟨1, ["python", "meco.py", "on"], some 0⟩,
        ⟨2, ["bash"], none⟩, ⟨3, ["python", "meco.py"], none⟩], 5, true⟩).kills) ∧
    (server_off ⟨[⟨1, ["python", "meco.py", "on"], some 0⟩,
        ⟨2, ["bash"], none⟩, ⟨3, ["python", "meco.py"], none⟩], 5, true⟩).pidFileAfter
      = false := by
  constructor
  · exact (C5_turnOff_sweep ⟨[⟨1, ["python", "meco.py", "on"], some 0⟩,
      ⟨2, ["bash"], none⟩, ⟨3, ["python", "meco.py"], none⟩], 5, true⟩).2.1
      ⟨3, ["python", "meco.py"], none⟩ (by decide) (by decide) (by decide)
  · exact (C5_turnOff_sweep ⟨[⟨1, ["python", "meco.py", "on"], some 0⟩,
      ⟨2, ["bash"], none⟩, ⟨3, ["python", "meco.py"], none⟩], 5, true⟩).2.2.2.1

end Meco
